import Mathlib

/-!
Shallow embedding of the identity-verification backend in `src/app.py`:
a FastAPI service with four endpoints (`/register-user`, `/verify-password`,
`/verify-face`, `/check-user`) over a sqlite `users` table.

The `users` table is modelled as a list of rows in insertion order; each
endpoint handler is a function from the table and the request fields to a
response paired with the table as left behind by the request.  A raised
`HTTPException(status_code, detail)` is the `Response.error` constructor;
a returned JSON dict is `Response.ok` with a structure mirroring its keys.

External libraries whose code is not part of this repository are modelled
as parameters: the image stack (`base64.b64decode`, `cv2.imdecode`,
`cv2.cvtColor`, `face_recognition.face_encodings`) as an `ImagePipeline`,
and `bcrypt` as a `PasswordHasher` carrying the contract of spec §4.3.
The distance functions `face_recognition.face_distance` and
`face_recognition.compare_faces` are transcribed from the spec's
description of the Biometric Verifier (§4.4): Euclidean distance and a
fixed `<=`-threshold.  Floating point numbers are idealised as reals, so
boolean comparisons on them become `Prop`s.
-/

namespace LysaApp

/-- A row of the sqlite `users` table (the autoincrement `id` column plays
no role in any endpoint and is omitted): `user_id`, `password_hash`, and
`face_encoding` (stored feature vector; floats idealised as reals). -/
structure UserRecord where
  user_id : String
  password_hash : String
  face_encoding : List ℝ

/-- Outcome of one request: a 200 body, or `HTTPException(code, detail)`. -/
inductive Response (α : Type) where
  | ok : α → Response α
  | error : (code : Nat) → (detail : String) → Response α

/-- Body of a successful `/register-user` response. -/
structure RegisterBody where
  success : Bool
  message : String

/-- Body of a successful `/verify-password` response. -/
structure VerifyPasswordBody where
  valid : Bool

/-- Body of a successful `/verify-face` response.  `verified` is a `Prop`
because the underlying float comparison is idealised over the reals. -/
structure VerifyFaceBody where
  verified : Prop
  distance : ℝ

/-- Body of a `/check-user` response; `user_exists` models the JSON key
`exists`. -/
structure CheckUserBody where
  user_exists : Bool

/-- The query `SELECT ... FROM users WHERE user_id = ?`: the first row
whose `user_id` matches. -/
def findUser (st : List UserRecord) (userId : String) : Option UserRecord :=
  st.find? (fun r => r.user_id == userId)

/-- Models Python `base64_image.split(',')[-1]`: the substring after the
last comma, or the whole string when it has no comma.  Strings are
modelled as lists of characters. -/
def afterLastComma (s : List Char) : List Char :=
  (s.reverse.takeWhile (fun c => c != ',')).reverse

/-- The external image stack called by `get_face_encoding_from_base64`
(`base64.b64decode`, `cv2.imdecode`, `cv2.cvtColor`,
`face_recognition.face_encodings`), whose code is not in this repository;
each stage is an abstract parameter over an abstract image type `Img`.
`b64decode` returns `none` when decoding raises (the source catches any
exception and returns `None`), `imdecode` returns `none` for an
undecodable byte buffer (`img is None` in the source), and
`face_encodings` returns the detected face encodings in detection order. -/
structure ImagePipeline (Img : Type) where
  b64decode : List Char → Option (List Nat)
  imdecode : List Nat → Option Img
  cvtColor : Img → Img
  face_encodings : Img → List (List ℝ)

/-- `get_face_encoding_from_base64` from `src/app.py`: split off everything
up to the last comma, base64-decode, decode the image, convert colour
channels, run face encoding; `None` on any failure, otherwise
`encodings[0] if encodings else None`. -/
def get_face_encoding_from_base64 {Img : Type} (P : ImagePipeline Img)
    (base64_image : List Char) : Option (List ℝ) :=
  match P.b64decode (afterLastComma base64_image) with
  | none => none
  | some image_data =>
    match P.imdecode image_data with
    | none => none
    | some img =>
      match (P.face_encodings (P.cvtColor img)) with
      | [] => none
      | e :: _ => some e

/-- Modelled from the spec: the external `bcrypt` library
(`bcrypt.hashpw` / `bcrypt.checkpw`), whose code is not in this
repository.  Spec §4.3 and §8 give its contract: a salted one-way hash
for which verification with the exact password succeeds and verification
with any other password fails. -/
structure PasswordHasher where
  hashpw : String → String → String
  checkpw : String → String → Bool
  checkpw_hashpw : ∀ password salt, checkpw password (hashpw password salt) = true
  checkpw_ne : ∀ password other salt,
    other ≠ password → checkpw other (hashpw password salt) = false

/-- Modelled from the spec: `face_recognition.face_distance`, computing
`np.linalg.norm(face_encodings - face_to_compare, axis=1)` — per spec §4.4
the Euclidean distance of each stored vector to the candidate (elementwise
difference, then the 2-norm of each row). -/
noncomputable def face_distance (face_encodings : List (List ℝ))
    (face_to_compare : List ℝ) : List ℝ :=
  (face_encodings.map (fun e => (e.zip face_to_compare).map (fun p => p.1 - p.2))).map
    (fun diff => Real.sqrt ((diff.map (fun x => x ^ 2)).sum))

/-- Modelled from the spec: `face_recognition.compare_faces`, which is
`list(face_distance(known_face_encodings, face_encoding_to_check) <= tolerance)`
— per spec §4.4, `is_match = distance <= tolerance` with the `<=`
semantics preserved exactly. -/
noncomputable def compare_faces (known_face_encodings : List (List ℝ))
    (face_encoding_to_check : List ℝ) (tolerance : ℝ) : List Prop :=
  (face_distance known_face_encodings face_encoding_to_check).map
    (fun d => d ≤ tolerance)

/-- The spec's description of the Biometric Verifier distance (§4.4):
the Euclidean distance between the two feature vectors. -/
noncomputable def euclideanDistance (a b : List ℝ) : ℝ :=
  Real.sqrt (((a.zip b).map (fun p => (p.1 - p.2) ^ 2)).sum)

/-- `POST /register-user`: conflict check, face extraction, password hash,
insert.  `salt` stands for the fresh `bcrypt.gensalt()` of the request. -/
def register_user {Img : Type} (P : ImagePipeline Img) (H : PasswordHasher)
    (salt : String) (st : List UserRecord)
    (userId password : String) (faceImage : List Char) :
    Response RegisterBody × List UserRecord :=
  if (findUser st userId).isSome then
    (Response.error 409 "User already exists", st)
  else
    match get_face_encoding_from_base64 P faceImage with
    | none => (Response.error 400 "Face not detected", st)
    | some face_encoding =>
      let password_hash := H.hashpw password salt
      (Response.ok ⟨true, "User registered"⟩,
        st ++ [⟨userId, password_hash, face_encoding⟩])

/-- `POST /verify-password`: look up the row, 404 if absent, else
`bcrypt.checkpw` against the stored hash. -/
def verify_password (H : PasswordHasher) (st : List UserRecord)
    (userId password : String) :
    Response VerifyPasswordBody × List UserRecord :=
  match findUser st userId with
  | none => (Response.error 404 "User not found", st)
  | some row => (Response.ok ⟨H.checkpw password row.password_hash⟩, st)

/-- `POST /verify-face`: look up the row, 404 if absent; extract the
incoming encoding, 400 if `None`; then
`compare_faces([stored], incoming, tolerance=0.5)[0]` and
`face_distance([stored], incoming)[0]`. -/
noncomputable def verify_face {Img : Type} (P : ImagePipeline Img)
    (st : List UserRecord) (userId : String) (faceImage : List Char) :
    Response VerifyFaceBody × List UserRecord :=
  match findUser st userId with
  | none => (Response.error 404 "User not found", st)
  | some row =>
    match get_face_encoding_from_base64 P faceImage with
    | none => (Response.error 400 "Face not detected", st)
    | some incoming =>
      (Response.ok
        ⟨(compare_faces [row.face_encoding] incoming (1 / 2)).headD False,
         (face_distance [row.face_encoding] incoming).headD 0⟩, st)

/-- `POST /check-user`: `SELECT 1 ... WHERE user_id = ?`;
`exists = fetchone() is not None`, always a 200 response. -/
def check_user (st : List UserRecord) (userId : String) :
    Response CheckUserBody × List UserRecord :=
  (Response.ok ⟨(findUser st userId).isSome⟩, st)

/-- A pipeline over the trivial image type whose stages always succeed
and that detects exactly the given encodings; used to exercise the
handlers on concrete inputs. -/
def constPipeline (encs : List (List ℝ)) : ImagePipeline Unit where
  b64decode _ := some []
  imdecode _ := some ()
  cvtColor := id
  face_encodings _ := encs

/-- A concrete inhabitant of the hasher contract (identity "hash",
equality check), showing the contract modelled from the spec is
satisfiable and letting handler theorems be exercised concretely. -/
def idHasher : PasswordHasher where
  hashpw p _ := p
  checkpw q h := q == h
  checkpw_hashpw := fun p _ => by simp
  checkpw_ne := fun _ q _ h => beq_eq_false_iff_ne.mpr h

/-! ### Helper lemmas -/

theorem takeWhile_append_of_not {p : Char → Bool} (x : Char) (hx : p x = false)
    (l r : List Char) : (l ++ x :: r).takeWhile p = l.takeWhile p := by
  induction l with
  | nil => simp [List.takeWhile_cons, hx]
  | cons c cs ih => by_cases h : p c <;> simp [List.takeWhile_cons, h, ih]

theorem afterLastComma_append (a b : List Char) :
    afterLastComma (a ++ ',' :: b) = afterLastComma b := by
  unfold afterLastComma
  have : (a ++ ',' :: b).reverse = b.reverse ++ ',' :: a.reverse := by
    simp
  rw [this, takeWhile_append_of_not ',' rfl]

theorem afterLastComma_no_comma (s : List Char) (h : ',' ∉ s) :
    afterLastComma s = s := by
  unfold afterLastComma
  rw [List.takeWhile_eq_self_iff.mpr, List.reverse_reverse]
  intro x hx
  rw [List.mem_reverse] at hx
  have hne : x ≠ ',' := fun he => h (he ▸ hx)
  simpa using hne

theorem comma_not_mem_afterLastComma (s : List Char) :
    ',' ∉ afterLastComma s := by
  unfold afterLastComma
  intro hmem
  rw [List.mem_reverse] at hmem
  simpa using List.mem_takeWhile_imp hmem

theorem register_user_ok {Img : Type} (P : ImagePipeline Img) (H : PasswordHasher)
    (salt : String) (st : List UserRecord) (userId password : String)
    (faceImage : List Char) (body : RegisterBody) (st' : List UserRecord)
    (h : register_user P H salt st userId password faceImage = (Response.ok body, st')) :
    findUser st userId = none ∧
    ∃ enc, get_face_encoding_from_base64 P faceImage = some enc ∧
      st' = st ++ [⟨userId, H.hashpw password salt, enc⟩] := by
  unfold register_user at h
  by_cases hf : (findUser st userId).isSome
  · rw [if_pos hf] at h
    simp at h
  · rw [if_neg hf] at h
    rcases hg : get_face_encoding_from_base64 P faceImage with _ | enc
    · rw [hg] at h
      simp at h
    · rw [hg] at h
      refine ⟨Option.not_isSome_iff_eq_none.mp hf, enc, rfl, ?_⟩
      have h2 := congrArg Prod.snd h
      simpa using h2.symm

theorem findUser_append (st : List UserRecord) (r : UserRecord) (userId : String)
    (h : findUser st userId = none) (hr : r.user_id = userId) :
    findUser (st ++ [r]) userId = some r := by
  unfold findUser at h ⊢
  rw [List.find?_append, h]
  simp [List.find?_cons, hr]

/-! ### Claims -/

/-- C1: a registration request for a `userId` already present in the store
fails with 409 Conflict ("User already exists"), whatever the password and
face image of the second call, and leaves the store exactly as it was. -/
theorem register_user_conflict {Img : Type} (P : ImagePipeline Img)
    (H : PasswordHasher) (salt : String) (st : List UserRecord)
    (userId password : String) (faceImage : List Char)
    (h : (findUser st userId).isSome) :
    register_user P H salt st userId password faceImage =
      (Response.error 409 "User already exists", st) := by
  simp [register_user, h]

/-- Witness for C1: a store already holding "alice", and a second call with
a different password and a face image whose extraction would even fail. -/
theorem register_user_conflict_witness :
    register_user (⟨fun _ => none, fun _ => none, id, fun _ => []⟩ : ImagePipeline Unit)
        idHasher "s2" [⟨"alice", "p1", [(0 : ℝ)]⟩] "alice" "p2" [] =
      (Response.error 409 "User already exists", [⟨"alice", "p1", [(0 : ℝ)]⟩]) :=
  register_user_conflict _ _ _ _ _ _ _ (by rfl)

/-- C2: a `/register-user` request either fails with some HTTP error and
leaves the store unchanged, or succeeds and appends exactly one fully
formed record whose face encoding is the successfully extracted one; in
particular no record is ever persisted without a successful encoding. -/
theorem register_user_atomic {Img : Type} (P : ImagePipeline Img)
    (H : PasswordHasher) (salt : String) (st : List UserRecord)
    (userId password : String) (faceImage : List Char) :
    ((∃ code detail, (register_user P H salt st userId password faceImage).1 =
        Response.error code detail) ∧
      (register_user P H salt st userId password faceImage).2 = st) ∨
    (∃ enc, get_face_encoding_from_base64 P faceImage = some enc ∧
      register_user P H salt st userId password faceImage =
        (Response.ok ⟨true, "User registered"⟩,
          st ++ [⟨userId, H.hashpw password salt, enc⟩])) := by
  unfold register_user
  by_cases hf : (findUser st userId).isSome
  · rw [if_pos hf]
    exact Or.inl ⟨⟨409, "User already exists", rfl⟩, rfl⟩
  · rw [if_neg hf]
    rcases hg : get_face_encoding_from_base64 P faceImage with _ | enc
    · exact Or.inl ⟨⟨400, "Face not detected", rfl⟩, rfl⟩
    · exact Or.inr ⟨enc, rfl, rfl⟩

/-- C6: the extractor uses exactly the substring after the last comma of
the face-image string (a comma-free string is used whole), returns `none`
whenever base64 decoding or image decoding fails or no face is detected,
and when several faces are detected returns the first detected one
(`head?` of the detection list). -/
theorem get_face_encoding_spec (Img : Type) (P : ImagePipeline Img)
    (a b s : List Char) (bs : List Nat) (img : Img) :
    afterLastComma (a ++ ',' :: b) = afterLastComma b ∧
    (',' ∉ s → afterLastComma s = s) ∧
    get_face_encoding_from_base64 P s =
      get_face_encoding_from_base64 P (afterLastComma s) ∧
    (P.b64decode (afterLastComma s) = none →
      get_face_encoding_from_base64 P s = none) ∧
    (P.b64decode (afterLastComma s) = some bs →
      (P.imdecode bs = none → get_face_encoding_from_base64 P s = none) ∧
      (P.imdecode bs = some img →
        get_face_encoding_from_base64 P s =
          (P.face_encodings (P.cvtColor img)).head?)) := by
  refine ⟨afterLastComma_append a b, afterLastComma_no_comma s, ?_, ?_, ?_⟩
  · rw [get_face_encoding_from_base64, get_face_encoding_from_base64,
      afterLastComma_no_comma _ (comma_not_mem_afterLastComma s)]
  · intro h
    simp [get_face_encoding_from_base64, h]
  · intro h
    constructor
    · intro h2
      simp [get_face_encoding_from_base64, h, h2]
    · intro h2
      rcases hE : P.face_encodings (P.cvtColor img) with _ | ⟨e, es⟩ <;>
        simp [get_face_encoding_from_base64, h, h2, hE]

/-- Witness for C6: each branch of the extractor contract exercised on a
concrete pipeline over the trivial image type. -/
theorem get_face_encoding_spec_witness :
    get_face_encoding_from_base64
        (⟨fun _ => none, fun _ => some (), id, fun _ => []⟩ : ImagePipeline Unit) [] = none ∧
    get_face_encoding_from_base64
        (⟨fun _ => some [], fun _ => none, id, fun _ => []⟩ : ImagePipeline Unit) [] = none ∧
    get_face_encoding_from_base64 (constPipeline [[(1 : ℝ)], [(2 : ℝ)]]) [] =
      [[(1 : ℝ)], [(2 : ℝ)]].head? ∧
    afterLastComma ([','] ++ ',' :: ['a']) = afterLastComma ['a'] ∧
    afterLastComma ['a'] = ['a'] :=
  ⟨(get_face_encoding_spec Unit _ [] [] [] [] ()).2.2.2.1 rfl,
   ((get_face_encoding_spec Unit _ [] [] [] [] ()).2.2.2.2 rfl).1 rfl,
   ((get_face_encoding_spec Unit (constPipeline [[(1 : ℝ)], [(2 : ℝ)]]) [] [] [] [] ()).2.2.2.2 rfl).2 rfl,
   (get_face_encoding_spec Unit (constPipeline []) [','] ['a'] [] [] ()).1,
   (get_face_encoding_spec Unit (constPipeline []) [] [] ['a'] [] ()).2.1 (by decide)⟩

theorem sub_self_zip_sq_sum (v : List ℝ) :
    (((v.zip v).map (fun p => p.1 - p.2)).map (fun x => x ^ 2)).sum = 0 := by
  induction v with
  | nil => simp
  | cons a t ih =>
    simp only [List.zip_cons_cons, List.map_cons, List.sum_cons, ih]
    ring

theorem zip_sub_sq_sum_symm (a b : List ℝ) :
    (((a.zip b).map (fun p => p.1 - p.2)).map (fun x => x ^ 2)).sum =
    (((b.zip a).map (fun p => p.1 - p.2)).map (fun x => x ^ 2)).sum := by
  induction a generalizing b with
  | nil => cases b <;> simp
  | cons x xs ih =>
    cases b with
    | nil => simp
    | cons y ys =>
      simp only [List.zip_cons_cons, List.map_cons, List.sum_cons, ih ys]
      ring

/-- C3: on a registered user and a successfully extracted candidate image,
`/verify-face` answers 200 without touching the store, the `distance`
field is the Euclidean distance between the stored and the candidate
feature vectors, and `verified` holds exactly when that distance is at
most the 0.5 threshold (`<=`, not `<`). -/
theorem verify_face_spec {Img : Type} (P : ImagePipeline Img)
    (st : List UserRecord) (userId : String) (faceImage : List Char)
    (row : UserRecord) (incoming : List ℝ)
    (hfind : findUser st userId = some row)
    (hext : get_face_encoding_from_base64 P faceImage = some incoming) :
    ∃ body : VerifyFaceBody,
      verify_face P st userId faceImage = (Response.ok body, st) ∧
      body.distance = euclideanDistance row.face_encoding incoming ∧
      (body.verified ↔ body.distance ≤ 1 / 2) := by
  refine ⟨⟨(compare_faces [row.face_encoding] incoming (1 / 2)).headD False,
           (face_distance [row.face_encoding] incoming).headD 0⟩, ?_, ?_, ?_⟩
  · simp [verify_face, hfind, hext]
  · simp only [face_distance, euclideanDistance, List.map_cons, List.map_nil,
      List.map_map, Function.comp_def, List.headD_cons]
  · simp [compare_faces, face_distance]

/-- Witness for C3: store holding "alice" with vector `[0]`, candidate
image extracting to `[1/2]`. -/
theorem verify_face_spec_witness :
    ∃ body : VerifyFaceBody,
      verify_face (constPipeline [[(1 / 2 : ℝ)]])
          [⟨"alice", "h1", [(0 : ℝ)]⟩] "alice" [] =
        (Response.ok body, [⟨"alice", "h1", [(0 : ℝ)]⟩]) ∧
      body.distance = euclideanDistance [(0 : ℝ)] [(1 / 2 : ℝ)] ∧
      (body.verified ↔ body.distance ≤ 1 / 2) :=
  verify_face_spec (constPipeline [[(1 / 2 : ℝ)]])
    [⟨"alice", "h1", [(0 : ℝ)]⟩] "alice" [] ⟨"alice", "h1", [(0 : ℝ)]⟩
    [(1 / 2 : ℝ)] rfl rfl

/-- C4: the biometric verifier on a pair of identical vectors: the
distance is exactly 0 and the 0.5-threshold match holds. -/
theorem verify_identical_vector (v : List ℝ) :
    face_distance [v] v = [0] ∧ (compare_faces [v] v (1 / 2)).headD False := by
  have hd : face_distance [v] v = [0] := by
    simp only [face_distance, List.map_cons, List.map_nil, sub_self_zip_sq_sum v,
      Real.sqrt_zero]
  refine ⟨hd, ?_⟩
  simp only [compare_faces, hd, List.map_cons, List.map_nil, List.headD_cons]
  norm_num

/-- C5: the distance computed by the biometric verifier is symmetric in
the stored and candidate vectors. -/
theorem face_distance_symm (a b : List ℝ) :
    face_distance [a] b = face_distance [b] a := by
  simp only [face_distance, List.map_cons, List.map_nil]
  rw [zip_sub_sq_sum_symm]

/-- C7: `/verify-password` answers 404 ("User not found") without touching
the store for an unknown id; after a successful registration, verifying
with the exact registered password answers `valid = true` and verifying
with any other password answers `valid = false`, in both cases without
touching the store. -/
theorem verify_password_spec {Img : Type} (P : ImagePipeline Img)
    (H : PasswordHasher) (salt : String) (st st' : List UserRecord)
    (userId password other : String) (faceImage : List Char)
    (body : RegisterBody) :
    (findUser st userId = none →
      verify_password H st userId password =
        (Response.error 404 "User not found", st)) ∧
    (register_user P H salt st userId password faceImage = (Response.ok body, st') →
      verify_password H st' userId password = (Response.ok ⟨true⟩, st') ∧
      (other ≠ password →
        verify_password H st' userId other = (Response.ok ⟨false⟩, st'))) := by
  constructor
  · intro h
    simp [verify_password, h]
  · intro h
    obtain ⟨hnone, enc, hg, hst⟩ :=
      register_user_ok P H salt st userId password faceImage body st' h
    have hf : findUser st' userId = some ⟨userId, H.hashpw password salt, enc⟩ := by
      rw [hst]
      exact findUser_append st _ userId hnone rfl
    constructor
    · simp [verify_password, hf, H.checkpw_hashpw]
    · intro hne
      simp [verify_password, hf, H.checkpw_ne password other salt hne]

/-- Witness for C7: register "alice" with password "p1" under the identity
hasher, then verify with "p1" (valid) and "p2" (invalid); also the 404 on
the empty store. -/
theorem verify_password_spec_witness :
    verify_password idHasher [] "alice" "p1" =
      (Response.error 404 "User not found", []) ∧
    verify_password idHasher [⟨"alice", "p1", [(0 : ℝ)]⟩] "alice" "p1" =
      (Response.ok ⟨true⟩, [⟨"alice", "p1", [(0 : ℝ)]⟩]) ∧
    verify_password idHasher [⟨"alice", "p1", [(0 : ℝ)]⟩] "alice" "p2" =
      (Response.ok ⟨false⟩, [⟨"alice", "p1", [(0 : ℝ)]⟩]) := by
  have h := verify_password_spec (constPipeline [[(0 : ℝ)]]) idHasher "s1" []
    [⟨"alice", "p1", [(0 : ℝ)]⟩] "alice" "p1" "p2" [] ⟨true, "User registered"⟩
  exact ⟨h.1 rfl, (h.2 rfl).1, (h.2 rfl).2 (by decide)⟩

/-- C8: `/check-user` always answers 200 with `exists` equal to the
membership test, never an error, and never changes the store; `exists` is
false for an unregistered id and true immediately after that id's
successful registration. -/
theorem check_user_spec {Img : Type} (P : ImagePipeline Img)
    (H : PasswordHasher) (salt : String) (st st' : List UserRecord)
    (userId password : String) (faceImage : List Char) (body : RegisterBody) :
    check_user st userId = (Response.ok ⟨(findUser st userId).isSome⟩, st) ∧
    (findUser st userId = none →
      check_user st userId = (Response.ok ⟨false⟩, st)) ∧
    (register_user P H salt st userId password faceImage = (Response.ok body, st') →
      check_user st' userId = (Response.ok ⟨true⟩, st')) := by
  refine ⟨rfl, ?_, ?_⟩
  · intro h
    simp [check_user, h]
  · intro h
    obtain ⟨hnone, enc, hg, hst⟩ :=
      register_user_ok P H salt st userId password faceImage body st' h
    have hf : findUser st' userId = some ⟨userId, H.hashpw password salt, enc⟩ := by
      rw [hst]
      exact findUser_append st _ userId hnone rfl
    simp [check_user, hf]

/-- Witness for C8: "bob" does not exist in the empty store; after a
successful registration of "bob" the same check answers true. -/
theorem check_user_spec_witness :
    check_user [] "bob" = (Response.ok ⟨false⟩, []) ∧
    check_user [⟨"bob", "pw", [(3 : ℝ)]⟩] "bob" =
      (Response.ok ⟨true⟩, [⟨"bob", "pw", [(3 : ℝ)]⟩]) := by
  have h := check_user_spec (constPipeline [[(3 : ℝ)]]) idHasher "s0" []
    [⟨"bob", "pw", [(3 : ℝ)]⟩] "bob" "pw" [] ⟨true, "User registered"⟩
  exact ⟨h.2.1 rfl, h.2.2 rfl⟩

end LysaApp
